import Mathlib

/-!
# Verification of the earthquake-viewer data acquisition and caching layer

Shallow embedding of the data layer of the Iran earthquake map application:

* `lib/api.ts` (source file `part_004`): `fetchEarthquakes`, `cacheData`,
  `getCachedData`, `CACHE_DURATIONS`, `IRAN_BOUNDS`, the real-time
  bounds/magnitude post-filter, the error-classifying catch block and the
  one-shot historical-to-realtime fallback.
* `page` component (source file `part_002`): the future-date clamp in
  `handleFilterChange`.
* `earthquake-sidebar.tsx`: `handleDateChange` date repairs.

Modelling conventions:

* JS numbers are rationals (`ℚ`); the magnitudes reachable from the UI
  slider (min 0, max 9, step 0.1) are nonnegative multiples of 1/10.
* A possibly-absent JS value (`undefined`) is an `Option`.
* A thrown JS exception is modelled by `Except` with a `JsError` carrying
  the `name` and `message` fields that the catch block inspects.
* Calendar dates in the clamp logic are modelled at day granularity: an ISO
  `YYYY-MM-DD` string is identified with its day number since the epoch.
  Lexicographic comparison of equal-length ISO date strings coincides with
  the numeric order of day numbers, and `new Date(s)` for such a string is
  the UTC midnight timestamp `day * msPerDay`.
* `localStorage` is an association list of key/value pairs where a write
  prepends (so the newest entry for a key shadows older ones), and
  `Date.now()` is passed explicitly.
-/

/-- JS exception value: the two fields the code's catch block inspects. -/
structure JsError where
  name : String
  message : String
deriving DecidableEq, Repr

/-- JS `String.prototype.includes` on unpacked character lists:
`sub` occurs (contiguously) somewhere in the list. -/
def infixScan (sub : List Char) : List Char → Bool
  | [] => sub.isEmpty
  | c :: t => sub.isPrefixOf (c :: t) || infixScan sub t

/-- JS `hay.includes(sub)`. -/
def jsIncludes (hay sub : String) : Bool :=
  infixScan sub.data hay.data

/-- Earthquake record properties. Of the `EarthquakeProperties` fields in
`lib/types.ts`, only `mag` is ever read by the data layer; `place` and
`time` are carried to show records pass through whole, and the remaining
descriptive fields (url, felt, alert, ...) are likewise never read and are
elided. A field can be absent in a raw payload, hence the `Option`s. -/
structure EqProperties where
  mag : Option ℚ
  place : Option String
  time : Option Int
deriving DecidableEq, Repr

/-- GeoJSON geometry of one record: `coordinates` is `none` when the raw
record has no coordinates array (destructuring it then throws). -/
structure Geometry where
  coordinates : Option (List ℚ)
deriving DecidableEq, Repr

/-- One raw/normalized earthquake record (`Earthquake` in `lib/types.ts`). -/
structure Feature where
  id : String
  properties : EqProperties
  geometry : Geometry
deriving DecidableEq, Repr

/-- Payload metadata. Only `count` is ever read or written by the data
layer; the other metadata fields (generated, url, title, status, api) pass
through untouched and are elided. -/
structure Metadata where
  count : Nat
deriving DecidableEq, Repr

/-- A feed payload / normalized collection (`EarthquakeData` in `lib/types.ts`). -/
structure EarthquakeData where
  metadata : Metadata
  features : List Feature
deriving DecidableEq, Repr

/-- The parameter object of `fetchEarthquakes` (`FetchEarthquakesParams`).
`startDate`/`endDate` are optional ISO date strings. -/
structure FetchParams where
  timeRange : String
  minMagnitude : ℚ
  startDate : Option String
  endDate : Option String
deriving DecidableEq, Repr

/-! ## Cache store (`lib/api.ts` lines 3-9, 141-175) -/

/-- One `localStorage` cache item: `{ data, timestamp: Date.now() }`. -/
structure CacheItem where
  data : EarthquakeData
  timestamp : Nat
deriving DecidableEq, Repr

/-- The `localStorage` contents relevant to the data layer: newest write
first; `List.lookup` returns the newest entry for a key. -/
abbrev CacheStore : Type := List (String × CacheItem)

/-- The `CACHE_DURATIONS` lookup table (milliseconds); `none` models a JS
property access that yields `undefined`. -/
def CACHE_DURATIONS (timeRange : String) : Option Nat :=
  if timeRange = "hour" then some (5 * 60 * 1000)
  else if timeRange = "day" then some (15 * 60 * 1000)
  else if timeRange = "week" then some (60 * 60 * 1000)
  else if timeRange = "historical" then some (24 * 60 * 60 * 1000)
  else none

/-- The expiry actually used: `CACHE_DURATIONS[timeRange] || CACHE_DURATIONS.day`
(line 163).  All table entries are nonzero, so `||` falls through exactly
on `undefined`. -/
def cacheDurationOf (timeRange : String) : Nat :=
  (CACHE_DURATIONS timeRange).getD (15 * 60 * 1000)

/-- The `getCachedData` function (lines 154-175): a stored item is returned
iff present and `Date.now() - timestamp < cacheDuration`. The subtraction is
JS number subtraction, hence over `ℤ`. -/
def getCachedData (store : CacheStore) (nowMs : Nat) (key timeRange : String) :
    Option EarthquakeData :=
  match List.lookup key store with
  | none => none
  | some item =>
      if (nowMs : ℤ) - (item.timestamp : ℤ) < (cacheDurationOf timeRange : ℤ) then
        some item.data
      else
        none

/-- The `cacheData` function (lines 141-152): stores `{data, timestamp: now}`
under `key`; its `timeRange` parameter is unused in the source as well. -/
def cacheData (store : CacheStore) (nowMs : Nat) (key : String)
    (d : EarthquakeData) (_timeRange : String) : CacheStore :=
  (key, ⟨d, nowMs⟩) :: store

/-! ## Cache key (`lib/api.ts` line 30)

`earthquake_data_${timeRange}_${minMagnitude}_${startDate || ""}_${endDate || ""}_iran`.

A JS template literal renders the number `minMagnitude` in decimal.  On the
magnitudes reachable from the UI (nonnegative multiples of 1/10) this is the
integer part, then `.d` when the tenths digit `d` is nonzero: `2` ↦ "2",
`2.5` ↦ "2.5", `0.1` ↦ "0.1". -/

/-- Decimal digit to its character. -/
def digChar : Nat → Char
  | 0 => '0' | 1 => '1' | 2 => '2' | 3 => '3' | 4 => '4'
  | 5 => '5' | 6 => '6' | 7 => '7' | 8 => '8' | 9 => '9'
  | _ => '?'

/-- Base-10 digits of `n`, least significant first, with explicit fuel so
the definition is structural (any `fuel ≥ n` gives the digits of `n`). -/
def digitsRev : Nat → Nat → List Nat
  | 0, _ => []
  | fuel + 1, n => if n = 0 then [] else n % 10 :: digitsRev fuel (n / 10)

/-- Decimal rendering of a natural number. -/
def natToString (n : Nat) : String :=
  if n = 0 then "0" else (((digitsRev n n).map digChar).reverse).asString

/-- Decimal rendering of the number `m / 10` (`m` in tenths). -/
def tenthsToString (m : Nat) : String :=
  if m % 10 = 0 then natToString (m / 10)
  else natToString (m / 10) ++ "." ++ [digChar (m % 10)].asString

/-- Rendering of a JS number as a template literal renders it, for the
numbers the UI can produce (nonnegative multiples of 1/10, from the
magnitude slider with min 0, max 9, step 0.1).  Such a `q` has lowest-terms
denominator dividing 10, and `q * 10` is the integer `q.num * (10 / q.den)`,
whose value in tenths is rendered as integer part, then `.d` when the
tenths digit `d` is nonzero.  Other rationals — never produced by the
program — fall back to the standard rendering. -/
def jsNumToString (q : ℚ) : String :=
  if 0 ≤ q.num ∧ 10 % q.den = 0 then tenthsToString (q.num.toNat * (10 / q.den))
  else toString q

/-- The cache key of line 30. -/
def cacheKey (p : FetchParams) : String :=
  "earthquake_data_" ++ p.timeRange ++ "_" ++ jsNumToString p.minMagnitude
    ++ "_" ++ p.startDate.getD "" ++ "_" ++ p.endDate.getD "" ++ "_iran"

/-- The cache category of lines 33 and 107:
`timeRange === "custom" ? "historical" : timeRange`. -/
def cacheCategory (timeRange : String) : String :=
  if timeRange = "custom" then "historical" else timeRange

/-! ## Real-time post-filter (`lib/api.ts` lines 11-14, 89-104) -/

/-- Iran's bounding box `[min lon, min lat, max lon, max lat]` (line 14):
`[44.0, 25.0, 63.0, 40.0]`, written with integer numerals (the same
rational numbers) so that the kernel can evaluate comparisons. -/
def IRAN_BOUNDS : List ℚ := [44, 25, 63, 40]

/-- JS `a >= b` where `a` may be `undefined`: any comparison with
`undefined` is false (NaN). -/
def jsGe (a : Option ℚ) (b : ℚ) : Bool :=
  match a with
  | none => false
  | some x => decide (b ≤ x)

/-- JS `a <= b` where `a` may be `undefined`. -/
def jsLe (a : Option ℚ) (b : ℚ) : Bool :=
  match a with
  | none => false
  | some x => decide (x ≤ b)

/-- The filter callback body (lines 92-99), after the destructuring
`const [lon, lat] = feature.geometry.coordinates` succeeded, i.e. given the
coordinates list `cs`: `lon = cs[0]`, `lat = cs[1]` (possibly `undefined`). -/
def featurePred (minMag : ℚ) (f : Feature) (cs : List ℚ) : Bool :=
  jsGe (cs.get? 0) (IRAN_BOUNDS.getD 0 0) && jsLe (cs.get? 0) (IRAN_BOUNDS.getD 2 0)
    && jsGe (cs.get? 1) (IRAN_BOUNDS.getD 1 0) && jsLe (cs.get? 1) (IRAN_BOUNDS.getD 3 0)
    && jsGe f.properties.mag minMag

/-- The exception thrown by destructuring a missing coordinates array. -/
def destructureError : JsError :=
  ⟨"TypeError", "feature.geometry.coordinates is not iterable"⟩

/-- `data.features.filter(...)` (lines 91-100).  `Array.prototype.filter`
runs the callback left to right; the callback first destructures
`feature.geometry.coordinates`, which throws when the array is absent, and
the exception aborts the whole filter. -/
def filterFeatures (minMag : ℚ) : List Feature → Except JsError (List Feature)
  | [] => .ok []
  | f :: fs =>
      match f.geometry.coordinates with
      | none => .error destructureError
      | some cs =>
          match filterFeatures minMag fs with
          | .error e => .error e
          | .ok rest => .ok (if featurePred minMag f cs then f :: rest else rest)

/-- Lines 89-104 of `fetchEarthquakes`: for a non-`custom` (real-time)
query, filter the features by bounds and magnitude and recompute
`metadata.count`; for a `custom` (historical) query the payload passes
through untouched. -/
def processPayload (p : FetchParams) (raw : EarthquakeData) :
    Except JsError EarthquakeData :=
  if p.timeRange ≠ "custom" then
    match filterFeatures p.minMagnitude raw.features with
    | .error e => .error e
    | .ok fs => .ok ⟨⟨fs.length⟩, fs⟩
  else
    .ok raw

/-! ## Error classification and fallback (`lib/api.ts` lines 110-138) -/

/-- Result of the catch block: either a rethrown error (`.error e`) or the
decision to fall back to the real-time week feed (`.ok ()`). -/
def catchHandler (timeRange : String) (e : JsError) : Except JsError Unit :=
  if e.name = "AbortError" then
    .error ⟨"Error", "Request timed out. The USGS server might be experiencing high load."⟩
  else if jsIncludes e.message "Failed to fetch" then
    .error ⟨"Error", "Network error. Please check your internet connection and try again."⟩
  else if jsIncludes e.message "400" then
    if jsIncludes e.message "orderby" then
      .error ⟨"Error", "API parameter error. Please try again with different settings."⟩
    else if timeRange = "custom" then
      .error ⟨"Error", "Invalid date range. Please ensure your dates are valid and not in the future."⟩
    else
      .error ⟨"Error", "API error: " ++ e.message⟩
  else
    if timeRange = "custom" then
      .ok ()
    else
      .error ⟨"Error", "Failed to fetch earthquake data: " ++ e.message⟩

/-- The arguments of the recursive fallback call (line 133):
`{ timeRange: "week", minMagnitude, startDate: undefined, endDate: undefined }`. -/
def weekFallback (minMag : ℚ) : FetchParams :=
  ⟨"week", minMag, none, none⟩

instance {ε α : Type} [DecidableEq ε] [DecidableEq α] : DecidableEq (Except ε α) := fun a b =>
  match a, b with
  | .error x, .error y =>
      if h : x = y then .isTrue (congrArg Except.error h)
      else .isFalse (fun hh => h (Except.error.inj hh))
  | .ok x, .ok y =>
      if h : x = y then .isTrue (congrArg Except.ok h)
      else .isFalse (fun hh => h (Except.ok.inj hh))
  | .error _, .ok _ => .isFalse (fun hh => Except.noConfusion hh)
  | .ok _, .error _ => .isFalse (fun hh => Except.noConfusion hh)

/-- Outcome of a `fetchEarthquakes` call: the returned value or thrown
error, the final `localStorage` contents, and the network requests issued
(in order), identified by the parameter set that built each URL. -/
structure FetchOutcome where
  result : Except JsError EarthquakeData
  cache : CacheStore
  requests : List FetchParams
deriving DecidableEq, Repr

/-- The body of the `try` block of `fetchEarthquakes` together with the
preceding cache lookup (lines 29-109): on a cache hit return it with no
request; otherwise issue the request (`net` maps a parameter set to the
parsed payload, or to the exception thrown by `fetch`/`response.ok`/
`response.json`), post-filter, and cache the result. -/
def attempt (net : FetchParams → Except JsError EarthquakeData)
    (store : CacheStore) (nowMs : Nat) (p : FetchParams) : FetchOutcome :=
  match getCachedData store nowMs (cacheKey p) (cacheCategory p.timeRange) with
  | some d => ⟨.ok d, store, []⟩
  | none =>
      match net p with
      | .error e => ⟨.error e, store, [p]⟩
      | .ok raw =>
          match processPayload p raw with
          | .error e => ⟨.error e, store, [p]⟩
          | .ok d =>
              ⟨.ok d, cacheData store nowMs (cacheKey p) d (cacheCategory p.timeRange), [p]⟩

/-- The whole `fetchEarthquakes` (lines 23-139).  The recursive fallback
call of line 133 is unfolded one level: its query has `timeRange = "week" ≠
"custom"`, so its own catch block never falls back again
(`catchHandler_fallback_imp_custom` below); the final `.ok` case of the
inner match is therefore unreachable. -/
def fetchEarthquakes (net : FetchParams → Except JsError EarthquakeData)
    (store : CacheStore) (nowMs : Nat) (p : FetchParams) : FetchOutcome :=
  match attempt net store nowMs p with
  | ⟨.ok d, c, reqs⟩ => ⟨.ok d, c, reqs⟩
  | ⟨.error e, c, reqs⟩ =>
      match catchHandler p.timeRange e with
      | .error e2 => ⟨.error e2, c, reqs⟩
      | .ok _ =>
          match attempt net c nowMs (weekFallback p.minMagnitude) with
          | ⟨.ok d, c2, reqs2⟩ => ⟨.ok d, c2, reqs ++ reqs2⟩
          | ⟨.error e3, c2, reqs2⟩ =>
              match catchHandler (weekFallback p.minMagnitude).timeRange e3 with
              | .error e4 => ⟨.error e4, c2, reqs ++ reqs2⟩
              | .ok _ => ⟨.error e3, c2, reqs ++ reqs2⟩

/-! ## Date clamps (`part_002` lines 155-164, `earthquake-sidebar.tsx`
lines 143-166, `lib/api.ts` lines 42-48)

Dates are day numbers; `today = nowMs / msPerDay`; `new Date(isoDate)` is
`day * msPerDay`; lexicographic comparison of ISO date strings is numeric
comparison of day numbers. -/

def msPerDay : Nat := 24 * 60 * 60 * 1000

/-- The presentation-boundary clamp in `handleFilterChange` (`part_002`
line 159): `endDate > today ? today : endDate`, comparing ISO strings. -/
def clampFilterEnd (endDate today : Nat) : Nat :=
  if today < endDate then today else endDate

/-- The defensive clamp inside `fetchEarthquakes` (line 48):
`endDate && new Date(endDate) > now ? today : endDate`. -/
def builderValidEnd (endDate : Option Nat) (nowMs : Nat) : Option Nat :=
  match endDate with
  | none => none
  | some e => some (if nowMs < e * msPerDay then nowMs / msPerDay else e)

/-- The date range that reaches the historical query URL (lines 51-52):
`starttime=startDate` untouched, `endtime=validEndDate`. -/
def resolvedHistoricalRange (startDate endDate : Option Nat) (nowMs : Nat) :
    Option Nat × Option Nat :=
  (startDate, builderValidEnd endDate nowMs)

/-- The sidebar's date-range state. -/
structure DateRange where
  startDate : Nat
  endDate : Nat
deriving DecidableEq, Repr

/-- Which date field `handleDateChange` was invoked for. -/
inductive DateField
  | startField
  | endField
deriving DecidableEq, Repr

/-- `handleDateChange` (`earthquake-sidebar.tsx` lines 143-166): an edited
end date is clamped to today; an edited start date is clamped down to the
current end date; the other field is untouched. -/
def handleDateChange (r : DateRange) (field : DateField) (value today : Nat) :
    DateRange :=
  match field with
  | .endField => { r with endDate := if today < value then today else value }
  | .startField => { r with startDate := if r.endDate < value then r.endDate else value }

/-! ## Claim-side predicates and helper functions -/

/-- The keep-condition of the real-time post-filter claim, stated on a
record: the record has longitude/latitude coordinates, they lie within the
Iran bounding box `[44.0, 25.0, 63.0, 40.0]`, and the record has a
magnitude that is at least the query's minimum. -/
def specKeep (minMag : ℚ) (f : Feature) : Bool :=
  match f.geometry.coordinates, f.properties.mag with
  | some (lon :: lat :: _), some m =>
      decide (44 ≤ lon ∧ lon ≤ 63 ∧ 25 ≤ lat ∧ lat ≤ 40 ∧ minMag ≤ m)
  | _, _ => false

/-- The magnitudes the UI slider can produce (min 0, max 9, step 0.1):
nonnegative rationals whose lowest-terms denominator divides 10. -/
def sliderMag (q : ℚ) : Prop := 0 ≤ q.num ∧ 10 % q.den = 0

/-- Decimal value of a little-endian digit list (left inverse of `digitsRev`). -/
def ofDigitsRev (l : List Nat) : Nat :=
  l.foldr (fun d acc => d + 10 * acc) 0

/-! # Theorems -/

/-! ## Cache expiry (claim C4) -/

theorem getCachedData_store_roundtrip (store : CacheStore) (k cat cat2 : String)
    (d : EarthquakeData) (T nowMs : Nat) :
    getCachedData (cacheData store T k d cat2) nowMs k cat
      = if (nowMs : ℤ) - (T : ℤ) < (cacheDurationOf cat : ℤ) then some d else none := by
  simp [getCachedData, cacheData, List.lookup]

/-- C4: a cache entry stored at time `T` is returned by `get` exactly when
`now - storedAt` is strictly below the duration of the category, the four
categories map to 5 min / 15 min / 60 min / 24 h, an unrecognized category
gets the `day` duration, and an `hour` entry is readable at `T + 299 s` but
not at `T + 301 s`. -/
theorem cache_expiry_policy :
    (∀ (store : CacheStore) (k cat : String) (d : EarthquakeData) (T nowMs : Nat),
      getCachedData (cacheData store T k d cat) nowMs k cat
        = if (nowMs : ℤ) - (T : ℤ) < (cacheDurationOf cat : ℤ) then some d else none)
    ∧ cacheDurationOf "hour" = 5 * 60 * 1000
    ∧ cacheDurationOf "day" = 15 * 60 * 1000
    ∧ cacheDurationOf "week" = 60 * 60 * 1000
    ∧ cacheDurationOf "historical" = 24 * 60 * 60 * 1000
    ∧ (∀ cat : String, cat ≠ "hour" → cat ≠ "day" → cat ≠ "week" → cat ≠ "historical" →
        cacheDurationOf cat = cacheDurationOf "day")
    ∧ (∀ (store : CacheStore) (k : String) (d : EarthquakeData) (T : Nat),
        getCachedData (cacheData store T k d "hour") (T + 299 * 1000) k "hour" = some d
        ∧ getCachedData (cacheData store T k d "hour") (T + 301 * 1000) k "hour" = none) := by
  refine ⟨fun store k cat d T nowMs => getCachedData_store_roundtrip .., rfl, rfl, rfl, rfl,
    ?_, ?_⟩
  · intro cat h1 h2 h3 h4
    simp [cacheDurationOf, CACHE_DURATIONS, h1, h2, h3, h4]
  · intro store k d T
    rw [getCachedData_store_roundtrip store k "hour" "hour" d T,
      getCachedData_store_roundtrip store k "hour" "hour" d T]
    constructor
    · rw [if_pos]
      show ((T + 299 * 1000 : Nat) : ℤ) - (T : ℤ) < ((cacheDurationOf "hour" : Nat) : ℤ)
      have : cacheDurationOf "hour" = 300000 := rfl
      rw [this]
      push_cast
      omega
    · rw [if_neg]
      show ¬(((T + 301 * 1000 : Nat) : ℤ) - (T : ℤ) < ((cacheDurationOf "hour" : Nat) : ℤ))
      have : cacheDurationOf "hour" = 300000 := rfl
      rw [this]
      push_cast
      omega

theorem cache_expiry_policy_witness :
    cacheDurationOf "satellite" = cacheDurationOf "day"
    ∧ getCachedData (cacheData [] 0 "k" ⟨⟨0⟩, []⟩ "hour") (0 + 299 * 1000) "k" "hour"
        = some ⟨⟨0⟩, []⟩
    ∧ getCachedData (cacheData [] 0 "k" ⟨⟨0⟩, []⟩ "hour") (0 + 301 * 1000) "k" "hour"
        = none :=
  ⟨cache_expiry_policy.2.2.2.2.2.1 "satellite" (by decide) (by decide) (by decide) (by decide),
   (cache_expiry_policy.2.2.2.2.2.2 [] "k" ⟨⟨0⟩, []⟩ 0).1,
   (cache_expiry_policy.2.2.2.2.2.2 [] "k" ⟨⟨0⟩, []⟩ 0).2⟩
/-! ## Date clamps (claims C5, C6) -/

theorem builder_clamp_cond_iff (e nowMs : Nat) :
    nowMs < e * msPerDay ↔ nowMs / msPerDay < e :=
  (Nat.div_lt_iff_lt_mul (by decide : 0 < msPerDay)).symm

/-- C5: the presentation-boundary clamp of `handleFilterChange` and the
defensive clamp inside `fetchEarthquakes` give the same clamped end date
(`end := today` exactly when `end > today`), and each clamp is idempotent. -/
theorem date_clamp_equivalence :
    (∀ e nowMs : Nat,
      builderValidEnd (some e) nowMs = some (clampFilterEnd e (nowMs / msPerDay)))
    ∧ (∀ e nowMs : Nat, nowMs / msPerDay < e →
        builderValidEnd (some e) nowMs = some (nowMs / msPerDay))
    ∧ (∀ e today : Nat, clampFilterEnd (clampFilterEnd e today) today = clampFilterEnd e today)
    ∧ (∀ (o : Option Nat) (nowMs : Nat),
        builderValidEnd (builderValidEnd o nowMs) nowMs = builderValidEnd o nowMs) := by
  have hmain : ∀ e nowMs : Nat,
      builderValidEnd (some e) nowMs = some (clampFilterEnd e (nowMs / msPerDay)) := by
    intro e nowMs
    simp only [builderValidEnd, clampFilterEnd, builder_clamp_cond_iff]
  have hidem : ∀ e today : Nat,
      clampFilterEnd (clampFilterEnd e today) today = clampFilterEnd e today := by
    intro e today
    by_cases h : today < e <;> simp [clampFilterEnd, h]
  refine ⟨hmain, ?_, hidem, ?_⟩
  · intro e nowMs h
    rw [hmain]
    unfold clampFilterEnd
    rw [if_pos h]
  · intro o nowMs
    match o with
    | none => rfl
    | some e => rw [hmain, hmain, hidem]

theorem date_clamp_equivalence_witness :
    (7 : Nat) / msPerDay < 2 ∧ builderValidEnd (some 2) 7 = some (7 / msPerDay) :=
  ⟨by decide, date_clamp_equivalence.2.1 2 7 (by decide)⟩

/-- C6 counterexample: a `Filters` input with `startDate` day 100 and
`endDate` day 50 (both in the past at a current time of day 200) resolves
to the historical query range `(100, 50)`: the inverted range is not
repaired to `start == end` and reaches the upstream query unchanged. -/
theorem inverted_range_unrepaired_cex :
    resolvedHistoricalRange (some 100) (some 50) (200 * msPerDay) = (some 100, some 50)
    ∧ ¬(100 ≤ 50) := by
  constructor
  · show (some 100, builderValidEnd (some 50) (200 * msPerDay)) = (some 100, some 50)
    rw [builderValidEnd, if_neg]
    decide
  · decide

/-- C6 (amended): the start-after-end repair exists only in the sidebar's
`handleDateChange` for edits of the start field — an edited start date is
clamped down to the current end date, giving `start == end` whenever the
entered start exceeds the end; the query builder in `fetchEarthquakes`
passes `startDate` through untouched, so an inverted range in `Filters`
reaches the upstream query unrepaired. -/
theorem inverted_range_repair_amended :
    (∀ (r : DateRange) (v today : Nat),
      (handleDateChange r .startField v today).startDate ≤ r.endDate
      ∧ (handleDateChange r .startField v today).endDate = r.endDate
      ∧ (r.endDate < v → handleDateChange r .startField v today = ⟨r.endDate, r.endDate⟩))
    ∧ (∀ (s e : Option Nat) (nowMs : Nat), (resolvedHistoricalRange s e nowMs).1 = s) := by
  refine ⟨fun r v today => ?_, fun s e nowMs => rfl⟩
  obtain ⟨rs, re⟩ := r
  refine ⟨?_, rfl, fun h => ?_⟩
  · simp only [handleDateChange]
    split <;> omega
  · simp [handleDateChange, h]

theorem inverted_range_repair_amended_witness :
    (10 : Nat) < 15
    ∧ handleDateChange (⟨20, 10⟩ : DateRange) DateField.startField 15 99 = ⟨10, 10⟩ :=
  ⟨by decide, (inverted_range_repair_amended.1 (⟨20, 10⟩ : DateRange) 15 99).2.2 (by decide)⟩

/-! ## Historical pass-through (claim C3) -/

/-- C3 counterexample: a successful historical fetch of a payload whose
upstream `metadata.count` is 5 but which has a single feature returns the
payload unchanged — `metadata.count` stays 5 and differs from
`events.length = 1`, so the count is not recomputed. -/
theorem historical_count_not_recomputed_cex :
    processPayload ⟨"custom", 0, some "2024-01-01", some "2024-02-01"⟩
        ⟨⟨5⟩, [⟨"a", ⟨some 3, none, none⟩, ⟨some [52, 30, 10]⟩⟩]⟩
      = .ok ⟨⟨5⟩, [⟨"a", ⟨some 3, none, none⟩, ⟨some [52, 30, 10]⟩⟩]⟩
    ∧ (5 : Nat) ≠ ([⟨"a", ⟨some 3, none, none⟩, ⟨some [52, 30, 10]⟩⟩] : List Feature).length := by
  constructor
  · decide
  · decide

/-- C3 (amended): a successful historical (`timeRange = "custom"`) fetch
returns the payload completely unchanged — no record is dropped, and
`metadata.count` keeps the value supplied by the upstream payload instead
of being recomputed; `metadata.count = events.length` therefore holds only
when the upstream payload already satisfied it. -/
theorem historical_passthrough (p : FetchParams) (raw : EarthquakeData)
    (h : p.timeRange = "custom") : processPayload p raw = .ok raw := by
  simp [processPayload, h]

theorem historical_passthrough_witness :
    processPayload ⟨"custom", 2, some "2024-01-01", some "2024-02-01"⟩ ⟨⟨5⟩, []⟩
      = .ok ⟨⟨5⟩, []⟩ :=
  historical_passthrough ⟨"custom", 2, some "2024-01-01", some "2024-02-01"⟩ ⟨⟨5⟩, []⟩ rfl

/-! ## Real-time post-filter (claims C1, C7) -/

theorem featurePred_eq_specKeep (minMag : ℚ) (f : Feature) (cs : List ℚ)
    (hcs : f.geometry.coordinates = some cs) :
    featurePred minMag f cs = specKeep minMag f := by
  cases cs with
  | nil =>
      cases hmag : f.properties.mag <;>
        simp [featurePred, specKeep, hcs, hmag, jsGe, jsLe, IRAN_BOUNDS]
  | cons lon rest =>
      cases rest with
      | nil =>
          cases hmag : f.properties.mag <;>
            simp [featurePred, specKeep, hcs, hmag, jsGe, jsLe, IRAN_BOUNDS]
      | cons lat rest2 =>
          cases hmag : f.properties.mag with
          | none => simp [featurePred, specKeep, hcs, hmag, jsGe, jsLe, IRAN_BOUNDS]
          | some m =>
              simp [featurePred, specKeep, hcs, hmag, jsGe, jsLe, IRAN_BOUNDS,
                Bool.and_assoc]

theorem filterFeatures_ok (minMag : ℚ) (l : List Feature)
    (hwf : ∀ f ∈ l, (f.geometry.coordinates).isSome = true) :
    filterFeatures minMag l = .ok (l.filter (specKeep minMag)) := by
  induction l with
  | nil => rfl
  | cons f fs ih =>
      obtain ⟨cs, hcs⟩ := Option.isSome_iff_exists.mp (hwf f (List.mem_cons_self f fs))
      have ih2 := ih (fun g hg => hwf g (List.mem_cons_of_mem f hg))
      rw [List.filter_cons]
      simp only [filterFeatures, hcs, ih2, featurePred_eq_specKeep minMag f cs hcs]

theorem filterFeatures_error (minMag : ℚ) (l : List Feature)
    (h : ∃ f ∈ l, f.geometry.coordinates = none) :
    filterFeatures minMag l = .error destructureError := by
  induction l with
  | nil => simp at h
  | cons f fs ih =>
      rcases h with ⟨g, hg, hnone⟩
      rcases List.mem_cons.mp hg with rfl | hgfs
      · simp [filterFeatures, hnone]
      · cases hcs : f.geometry.coordinates with
        | none => simp [filterFeatures, hcs]
        | some cs => simp [filterFeatures, hcs, ih ⟨g, hgfs, hnone⟩]

theorem specKeep_of_mag_none (mm : ℚ) (f : Feature) (h : f.properties.mag = none) :
    specKeep mm f = false := by
  obtain ⟨fid, ⟨mag, pl, tm⟩, ⟨cs⟩⟩ := f
  simp only at h
  subst h
  cases cs with
  | none => rfl
  | some l =>
      cases l with
      | nil => rfl
      | cons a t => cases t <;> rfl

/-- C1: for every real-time (non-`custom`) query over records that carry a
coordinates array, the normalization step returns exactly the subset of raw
records whose longitude/latitude lie within the Iran bounding box
`[44.0, 25.0, 63.0, 40.0]` and whose magnitude is at least the query's
`minMagnitude`, and `metadata.count` is the length of that subset. -/
theorem realtime_filter_exact (p : FetchParams) (raw : EarthquakeData)
    (hrt : p.timeRange ≠ "custom")
    (hwf : ∀ f ∈ raw.features, (f.geometry.coordinates).isSome = true) :
    processPayload p raw
      = .ok ⟨⟨(raw.features.filter (specKeep p.minMagnitude)).length⟩,
             raw.features.filter (specKeep p.minMagnitude)⟩ := by
  simp [processPayload, hrt, filterFeatures_ok p.minMagnitude raw.features hwf]

theorem realtime_filter_exact_witness :
    processPayload ⟨"day", 2, none, none⟩
        ⟨⟨3⟩, [⟨"in", ⟨some 3, none, none⟩, ⟨some [52, 30, 10]⟩⟩,
               ⟨"out", ⟨some 3, none, none⟩, ⟨some [10, 30, 10]⟩⟩,
               ⟨"low", ⟨some 1, none, none⟩, ⟨some [52, 30, 10]⟩⟩]⟩
      = .ok ⟨⟨1⟩, [⟨"in", ⟨some 3, none, none⟩, ⟨some [52, 30, 10]⟩⟩]⟩ := by
  rw [realtime_filter_exact ⟨"day", 2, none, none⟩
    ⟨⟨3⟩, [⟨"in", ⟨some 3, none, none⟩, ⟨some [52, 30, 10]⟩⟩,
           ⟨"out", ⟨some 3, none, none⟩, ⟨some [10, 30, 10]⟩⟩,
           ⟨"low", ⟨some 1, none, none⟩, ⟨some [52, 30, 10]⟩⟩]⟩
    (by decide) (by decide)]
  decide

/-- C7 counterexample: a real-time payload with one well-formed record and
one record whose coordinates array is missing makes the whole normalization
step throw — the batch fails instead of dropping the malformed record. -/
theorem malformed_record_fatal_cex :
    processPayload ⟨"day", 0, none, none⟩
        ⟨⟨2⟩, [⟨"good", ⟨some 3, none, none⟩, ⟨some [52, 30, 10]⟩⟩,
               ⟨"bad", ⟨some 3, none, none⟩, ⟨none⟩⟩]⟩
      = .error destructureError := by
  decide

/-- C7 (amended): in real-time normalization a record that merely lacks a
magnitude (or whose coordinates array is too short) is dropped while the
remaining records are kept — every kept record satisfies the bounding-box
and magnitude condition and comes from the input; but a record whose
coordinates array is missing entirely makes the whole batch fail with the
destructuring error. -/
theorem malformed_record_handling :
    (∀ (p : FetchParams) (raw : EarthquakeData),
      p.timeRange ≠ "custom" →
      (∀ f ∈ raw.features, (f.geometry.coordinates).isSome = true) →
      ∃ d, processPayload p raw = .ok d
        ∧ (∀ f ∈ raw.features, f.properties.mag = none → f ∉ d.features)
        ∧ (∀ f ∈ raw.features, specKeep p.minMagnitude f = true → f ∈ d.features)
        ∧ (∀ f ∈ d.features, f ∈ raw.features))
    ∧ (∀ (p : FetchParams) (raw : EarthquakeData),
      p.timeRange ≠ "custom" →
      (∃ f ∈ raw.features, f.geometry.coordinates = none) →
      processPayload p raw = .error destructureError) := by
  constructor
  · intro p raw hrt hwf
    refine ⟨_, realtime_filter_exact p raw hrt hwf, ?_, ?_, ?_⟩
    · intro f hf hmag hmem
      have hkeep := (List.mem_filter.mp hmem).2
      rw [specKeep_of_mag_none p.minMagnitude f hmag] at hkeep
      cases hkeep
    · intro f hf hkeep
      exact List.mem_filter.mpr ⟨hf, hkeep⟩
    · intro f hf
      exact (List.mem_filter.mp hf).1
  · intro p raw hrt hbad
    simp [processPayload, hrt, filterFeatures_error p.minMagnitude raw.features hbad]

theorem malformed_record_handling_witness :
    ∃ d, processPayload ⟨"hour", 0, none, none⟩
        ⟨⟨2⟩, [⟨"nomag", ⟨none, none, none⟩, ⟨some [52, 30, 10]⟩⟩,
               ⟨"ok", ⟨some 4, none, none⟩, ⟨some [53, 31, 8]⟩⟩]⟩ = .ok d
      ∧ (⟨"nomag", ⟨none, none, none⟩, ⟨some [52, 30, 10]⟩⟩ : Feature) ∉ d.features := by
  obtain ⟨d, hd, hdrop, hkeep, hsub⟩ :=
    malformed_record_handling.1 ⟨"hour", 0, none, none⟩
      ⟨⟨2⟩, [⟨"nomag", ⟨none, none, none⟩, ⟨some [52, 30, 10]⟩⟩,
             ⟨"ok", ⟨some 4, none, none⟩, ⟨some [53, 31, 8]⟩⟩]⟩
      (by decide) (by decide)
  exact ⟨d, hd, hdrop _ (by decide) (by decide)⟩

/-! ## Fetch flow: fallback policy (claims C2, C8, C10) -/

theorem attempt_of_miss (net : FetchParams → Except JsError EarthquakeData)
    (store : CacheStore) (nowMs : Nat) (p : FetchParams)
    (hmiss : getCachedData store nowMs (cacheKey p) (cacheCategory p.timeRange) = none) :
    attempt net store nowMs p
      = match net p with
        | .error e => ⟨.error e, store, [p]⟩
        | .ok raw =>
            match processPayload p raw with
            | .error e => ⟨.error e, store, [p]⟩
            | .ok d =>
                ⟨.ok d, cacheData store nowMs (cacheKey p) d (cacheCategory p.timeRange), [p]⟩ := by
  unfold attempt
  rw [hmiss]

theorem attempt_requests_len (net : FetchParams → Except JsError EarthquakeData)
    (store : CacheStore) (nowMs : Nat) (p : FetchParams) :
    (attempt net store nowMs p).requests.length ≤ 1 := by
  unfold attempt
  cases getCachedData store nowMs (cacheKey p) (cacheCategory p.timeRange) with
  | some d => simp
  | none =>
      cases net p with
      | error e => simp
      | ok raw => cases hp : processPayload p raw <;> simp [hp]

theorem catchHandler_fallback_imp_custom (tr : String) (e : JsError) (u : Unit)
    (h : catchHandler tr e = .ok u) : tr = "custom" := by
  unfold catchHandler at h
  repeat' split at h
  all_goals first | assumption | cases h

theorem catchHandler_of_not_custom (tr : String) (e : JsError) (h : tr ≠ "custom") :
    ∃ e2, catchHandler tr e = .error e2 := by
  cases he : catchHandler tr e with
  | error e2 => exact ⟨e2, rfl⟩
  | ok u => exact absurd (catchHandler_fallback_imp_custom tr e u he) h

/-- C2 counterexample: a historical (`timeRange = "custom"`) fetch that
fails with the transport-level Network error (a `TypeError` whose message
is "Failed to fetch") issues exactly one network request — no
`RealTime/Week` retry — and rethrows the classified Network message. -/
theorem network_error_no_fallback_cex :
    fetchEarthquakes (fun _ => .error ⟨"TypeError", "Failed to fetch"⟩) [] 0
      ⟨"custom", 2, some "2024-01-01", some "2024-02-01"⟩
    = ⟨.error ⟨"Error", "Network error. Please check your internet connection and try again."⟩,
       [], [⟨"custom", 2, some "2024-01-01", some "2024-02-01"⟩]⟩ := by
  decide

/-- C2 (amended): a historical fetch whose cache lookups miss and that
fails with an error that is not an abort, whose message contains neither
"Failed to fetch" nor "400", retries exactly once with the `RealTime/Week`
parameter set at the same `minMagnitude` and no dates; Network
("Failed to fetch") errors are rethrown without any fallback (see the
counterexample); real-time queries never trigger a fallback (at most one
request, over any store); and no call ever issues more than two requests,
so there is never more than one fallback attempt. -/
theorem fallback_policy_amended :
    (∀ (net : FetchParams → Except JsError EarthquakeData) (store : CacheStore)
        (nowMs : Nat) (p : FetchParams) (e : JsError),
      p.timeRange = "custom" →
      getCachedData store nowMs (cacheKey p) (cacheCategory p.timeRange) = none →
      getCachedData store nowMs (cacheKey (weekFallback p.minMagnitude))
        (cacheCategory (weekFallback p.minMagnitude).timeRange) = none →
      net p = .error e →
      e.name ≠ "AbortError" →
      jsIncludes e.message "Failed to fetch" = false →
      jsIncludes e.message "400" = false →
      (fetchEarthquakes net store nowMs p).requests = [p, weekFallback p.minMagnitude])
    ∧ (∀ m : ℚ, weekFallback m = ⟨"week", m, none, none⟩)
    ∧ (∀ (net : FetchParams → Except JsError EarthquakeData) (store : CacheStore)
        (nowMs : Nat) (p : FetchParams),
        p.timeRange ≠ "custom" → (fetchEarthquakes net store nowMs p).requests.length ≤ 1)
    ∧ (∀ (net : FetchParams → Except JsError EarthquakeData) (store : CacheStore)
        (nowMs : Nat) (p : FetchParams),
        (fetchEarthquakes net store nowMs p).requests.length ≤ 2) := by
  refine ⟨?_, fun m => rfl, ?_, ?_⟩
  · intro net store nowMs p e hc hm1 hm2 hnet hname hnf h400
    have hch : catchHandler p.timeRange e = .ok () := by
      rw [hc]
      unfold catchHandler
      rw [if_neg hname, hnf, h400]
      simp
    unfold fetchEarthquakes
    rw [attempt_of_miss net store nowMs p hm1, hnet]
    simp only [hch]
    rw [attempt_of_miss net store nowMs (weekFallback p.minMagnitude) hm2]
    cases hwk : net (weekFallback p.minMagnitude) with
    | error e3 =>
        rcases catchHandler_of_not_custom (weekFallback p.minMagnitude).timeRange e3
          ((by decide : ("week" : String) ≠ "custom")) with ⟨e4, he4⟩
        simp [he4]
    | ok raw =>
        cases hp : processPayload (weekFallback p.minMagnitude) raw with
        | ok d => simp [hp]
        | error e5 =>
            rcases catchHandler_of_not_custom (weekFallback p.minMagnitude).timeRange e5
              ((by decide : ("week" : String) ≠ "custom")) with ⟨e4, he4⟩
            simp [hp, he4]
  · intro net store nowMs p h
    unfold fetchEarthquakes
    cases ha : attempt net store nowMs p with
    | mk res c reqs =>
        have hlen : reqs.length ≤ 1 := by
          have hh := attempt_requests_len net store nowMs p
          rw [ha] at hh
          exact hh
        cases res with
        | ok d => simpa using hlen
        | error e =>
            rcases catchHandler_of_not_custom p.timeRange e h with ⟨e2, he2⟩
            simp only [he2]
            simpa using hlen
  · intro net store nowMs p
    unfold fetchEarthquakes
    cases ha : attempt net store nowMs p with
    | mk res c reqs =>
        have hlen : reqs.length ≤ 1 := by
          have hh := attempt_requests_len net store nowMs p
          rw [ha] at hh
          exact hh
        cases res with
        | ok d => simpa using hlen.trans (by omega)
        | error e =>
            cases hch : catchHandler p.timeRange e with
            | error e2 =>
                simp only [hch]
                simpa using hlen.trans (by omega)
            | ok u =>
                cases hb : attempt net c nowMs (weekFallback p.minMagnitude) with
                | mk res2 c2 reqs2 =>
                    have hlen2 : reqs2.length ≤ 1 := by
                      have hh := attempt_requests_len net c nowMs (weekFallback p.minMagnitude)
                      rw [hb] at hh
                      exact hh
                    cases res2 with
                    | ok d =>
                        simp only [hch, hb]
                        simp only [FetchOutcome.requests, List.length_append]
                        omega
                    | error e3 =>
                        cases hc3 : catchHandler (weekFallback p.minMagnitude).timeRange e3 <;>
                          · simp only [hch, hb, hc3]
                            simp only [FetchOutcome.requests, List.length_append]
                            omega

theorem fallback_policy_amended_witness :
    (fetchEarthquakes (fun _ => .error ⟨"Error", "upstream exploded"⟩) [] 0
        ⟨"custom", 3, some "2024-01-01", some "2024-02-01"⟩).requests
      = [⟨"custom", 3, some "2024-01-01", some "2024-02-01"⟩, weekFallback 3] :=
  fallback_policy_amended.1 (fun _ => .error ⟨"Error", "upstream exploded"⟩) [] 0
    ⟨"custom", 3, some "2024-01-01", some "2024-02-01"⟩ ⟨"Error", "upstream exploded"⟩
    rfl rfl rfl rfl (by decide) (by decide) (by decide)

/-- C8 counterexample: when the historical attempt fails with
"original failure" (fallback-eligible) and the week fallback then fails
with "fallback failure", the surfaced error is the classified fallback
error, which is not the original error (nor its classified wrapping). -/
theorem fallback_error_surfaced_cex :
    (fetchEarthquakes
        (fun q => if q.timeRange = "custom" then .error ⟨"Error", "original failure"⟩
                  else .error ⟨"Error", "fallback failure"⟩) [] 0
        ⟨"custom", 2, some "2024-01-01", some "2024-02-01"⟩).result
      = .error ⟨"Error", "Failed to fetch earthquake data: fallback failure"⟩
    ∧ (⟨"Error", "Failed to fetch earthquake data: fallback failure"⟩ : JsError)
        ≠ ⟨"Error", "original failure"⟩
    ∧ (⟨"Error", "Failed to fetch earthquake data: fallback failure"⟩ : JsError)
        ≠ ⟨"Error", "Failed to fetch earthquake data: original failure"⟩ := by
  refine ⟨by decide, by decide, by decide⟩

/-- C8 (amended): when a historical fetch (cache miss) fails with a
fallback-eligible error and the one-shot `RealTime/Week` fallback's request
also fails, the error surfaced to the caller is the fallback attempt's
error as classified by the catch block — not the original historical
attempt's error. -/
theorem fallback_error_surfaced (net : FetchParams → Except JsError EarthquakeData)
    (nowMs : Nat) (p : FetchParams) (e1 e2 : JsError)
    (hc : p.timeRange = "custom")
    (h1 : net p = .error e1)
    (hfb : catchHandler "custom" e1 = .ok ())
    (h2 : net (weekFallback p.minMagnitude) = .error e2) :
    ∃ e3, catchHandler "week" e2 = .error e3
      ∧ (fetchEarthquakes net [] nowMs p).result = .error e3 := by
  rcases catchHandler_of_not_custom "week" e2 (by decide) with ⟨e3, he3⟩
  refine ⟨e3, he3, ?_⟩
  have hch : catchHandler p.timeRange e1 = .ok () := by rw [hc]; exact hfb
  unfold fetchEarthquakes
  rw [attempt_of_miss net [] nowMs p rfl, h1]
  simp only [hch]
  rw [attempt_of_miss net [] nowMs (weekFallback p.minMagnitude) rfl, h2]
  have he3w : catchHandler (weekFallback p.minMagnitude).timeRange e2 = .error e3 := he3
  simp [he3w]

theorem fallback_error_surfaced_witness :
    ∃ e3, catchHandler "week" ⟨"Error", "fallback boom"⟩ = .error e3
      ∧ (fetchEarthquakes
          (fun q => if q.timeRange = "custom" then .error ⟨"Error", "original boom"⟩
                    else .error ⟨"Error", "fallback boom"⟩) [] 7
          ⟨"custom", 2, none, none⟩).result = .error e3 :=
  fallback_error_surfaced
    (fun q => if q.timeRange = "custom" then .error ⟨"Error", "original boom"⟩
              else .error ⟨"Error", "fallback boom"⟩)
    7 ⟨"custom", 2, none, none⟩ ⟨"Error", "original boom"⟩ ⟨"Error", "fallback boom"⟩
    rfl (by decide) (by decide) (by decide)

/-! ## Cache keys (claims C9, C10) -/

theorem cacheKey_data (p : FetchParams) :
    (cacheKey p).data
      = "earthquake_data_".data ++ (p.timeRange.data ++ ("_".data
          ++ ((jsNumToString p.minMagnitude).data ++ ("_".data
          ++ ((p.startDate.getD "").data ++ ("_".data
          ++ ((p.endDate.getD "").data ++ "_iran".data))))))) := by
  simp [cacheKey, List.append_assoc]

theorem cacheKey_custom_ne_week (p1 p2 : FetchParams)
    (h1 : p1.timeRange = "custom") (h2 : p2.timeRange = "week") :
    cacheKey p1 ≠ cacheKey p2 := by
  intro h
  have hd := congrArg String.data h
  rw [cacheKey_data, cacheKey_data, h1, h2] at hd
  have hd2 := List.append_cancel_left hd
  have e1 : "custom".data = 'c' :: "ustom".data := rfl
  have e2 : "week".data = 'w' :: "eek".data := rfl
  rw [e1, e2, List.cons_append, List.cons_append] at hd2
  have hh := congrArg List.head? hd2
  simp at hh

theorem fetch_requests_on_miss (net : FetchParams → Except JsError EarthquakeData)
    (store : CacheStore) (nowMs : Nat) (p : FetchParams)
    (hmiss : getCachedData store nowMs (cacheKey p) (cacheCategory p.timeRange) = none) :
    ∃ l, (fetchEarthquakes net store nowMs p).requests = p :: l := by
  unfold fetchEarthquakes
  rw [attempt_of_miss net store nowMs p hmiss]
  cases hne : net p with
  | error e =>
      cases hch : catchHandler p.timeRange e with
      | error e2 => exact ⟨[], by simp [hch]⟩
      | ok u =>
          cases hb : attempt net store nowMs (weekFallback p.minMagnitude) with
          | mk res2 c2 reqs2 =>
              cases res2 with
              | ok d => exact ⟨reqs2, by simp [hch, hb]⟩
              | error e3 =>
                  cases hc3 : catchHandler (weekFallback p.minMagnitude).timeRange e3 with
                  | error e4 => exact ⟨reqs2, by simp [hch, hb, hc3]⟩
                  | ok u2 => exact ⟨reqs2, by simp [hch, hb, hc3]⟩
  | ok raw =>
      cases hp : processPayload p raw with
      | error e =>
          cases hch : catchHandler p.timeRange e with
          | error e2 => exact ⟨[], by simp [hp, hch]⟩
          | ok u =>
              cases hb : attempt net store nowMs (weekFallback p.minMagnitude) with
              | mk res2 c2 reqs2 =>
                  cases res2 with
                  | ok d => exact ⟨reqs2, by simp [hp, hch, hb]⟩
                  | error e3 =>
                      cases hc3 : catchHandler (weekFallback p.minMagnitude).timeRange e3 with
                      | error e4 => exact ⟨reqs2, by simp [hp, hch, hb, hc3]⟩
                      | ok u2 => exact ⟨reqs2, by simp [hp, hch, hb, hc3]⟩
      | ok d => exact ⟨[], by simp [hp]⟩

/-- C10: when a historical fetch (empty cache) fails with a
fallback-eligible error and the `RealTime/Week` fallback succeeds, the
fallback's result is cached only under the week-feed cache key (empty date
components); the original historical query's key receives no entry, so
repeating the same historical fetch afterwards misses the cache and issues
a fresh network request for it. -/
theorem fallback_cache_frame (net : FetchParams → Except JsError EarthquakeData)
    (nowMs nowMs2 : Nat) (p : FetchParams) (e : JsError) (raw d : EarthquakeData)
    (hc : p.timeRange = "custom")
    (h1 : net p = .error e)
    (hfb : catchHandler "custom" e = .ok ())
    (h2 : net (weekFallback p.minMagnitude) = .ok raw)
    (h3 : processPayload (weekFallback p.minMagnitude) raw = .ok d) :
    (fetchEarthquakes net [] nowMs p).result = .ok d
    ∧ (fetchEarthquakes net [] nowMs p).cache
        = [(cacheKey (weekFallback p.minMagnitude), ⟨d, nowMs⟩)]
    ∧ List.lookup (cacheKey p) (fetchEarthquakes net [] nowMs p).cache = none
    ∧ (fetchEarthquakes net (fetchEarthquakes net [] nowMs p).cache nowMs2 p).requests.head?
        = some p := by
  have hch : catchHandler p.timeRange e = .ok () := by rw [hc]; exact hfb
  have hkey : cacheKey p ≠ cacheKey (weekFallback p.minMagnitude) :=
    cacheKey_custom_ne_week p (weekFallback p.minMagnitude) hc rfl
  have hout : fetchEarthquakes net [] nowMs p
      = ⟨.ok d, [(cacheKey (weekFallback p.minMagnitude), ⟨d, nowMs⟩)],
         [p, weekFallback p.minMagnitude]⟩ := by
    unfold fetchEarthquakes
    rw [attempt_of_miss net [] nowMs p rfl, h1]
    simp only [hch]
    rw [attempt_of_miss net [] nowMs (weekFallback p.minMagnitude) rfl, h2]
    simp [h3, cacheData, cacheCategory]
  rw [hout]
  refine ⟨rfl, rfl, ?_, ?_⟩
  · simp only [List.lookup]
    rw [beq_eq_false_iff_ne.mpr hkey]
  · have hmiss : getCachedData [(cacheKey (weekFallback p.minMagnitude), ⟨d, nowMs⟩)]
        nowMs2 (cacheKey p) (cacheCategory p.timeRange) = none := by
      unfold getCachedData
      simp only [List.lookup]
      rw [beq_eq_false_iff_ne.mpr hkey]
    rcases fetch_requests_on_miss net _ nowMs2 p hmiss with ⟨l, hl⟩
    rw [hl]
    rfl

theorem fallback_cache_frame_witness :
    (fetchEarthquakes
        (fun q => if q.timeRange = "custom" then .error ⟨"Error", "server melted"⟩
                  else .ok ⟨⟨1⟩, [⟨"a", ⟨some 3, none, none⟩, ⟨some [52, 30, 10]⟩⟩]⟩) [] 5
        ⟨"custom", 2, some "2024-01-01", some "2024-02-01"⟩).cache
      = [(cacheKey (weekFallback 2),
          ⟨⟨⟨1⟩, [⟨"a", ⟨some 3, none, none⟩, ⟨some [52, 30, 10]⟩⟩]⟩, 5⟩)]
    ∧ List.lookup (cacheKey ⟨"custom", 2, some "2024-01-01", some "2024-02-01"⟩)
        (fetchEarthquakes
          (fun q => if q.timeRange = "custom" then .error ⟨"Error", "server melted"⟩
                    else .ok ⟨⟨1⟩, [⟨"a", ⟨some 3, none, none⟩, ⟨some [52, 30, 10]⟩⟩]⟩) [] 5
          ⟨"custom", 2, some "2024-01-01", some "2024-02-01"⟩).cache = none := by
  have hh := fallback_cache_frame
    (fun q => if q.timeRange = "custom" then .error ⟨"Error", "server melted"⟩
              else .ok ⟨⟨1⟩, [⟨"a", ⟨some 3, none, none⟩, ⟨some [52, 30, 10]⟩⟩]⟩)
    5 99 ⟨"custom", 2, some "2024-01-01", some "2024-02-01"⟩ ⟨"Error", "server melted"⟩
    ⟨⟨1⟩, [⟨"a", ⟨some 3, none, none⟩, ⟨some [52, 30, 10]⟩⟩]⟩
    ⟨⟨1⟩, [⟨"a", ⟨some 3, none, none⟩, ⟨some [52, 30, 10]⟩⟩]⟩
    rfl (by decide) (by decide) (by decide) (by decide)
  exact ⟨hh.2.1, hh.2.2.1⟩

/-! ## Decimal rendering and cache-key injectivity (claim C9) -/

theorem ofDigitsRev_digitsRev : ∀ (fuel n : Nat), n ≤ fuel →
    ofDigitsRev (digitsRev fuel n) = n := by
  intro fuel
  induction fuel with
  | zero =>
      intro n hn
      interval_cases n
      rfl
  | succ fuel ih =>
      intro n hn
      by_cases h0 : n = 0
      · subst h0
        simp [digitsRev, ofDigitsRev]
      · have hdiv : n / 10 ≤ fuel := by
          have := Nat.div_lt_self (Nat.pos_of_ne_zero h0) (by decide : 1 < 10)
          omega
        simp only [digitsRev, if_neg h0, ofDigitsRev, List.foldr_cons]
        have := ih (n / 10) hdiv
        simp only [ofDigitsRev] at this
        rw [this]
        omega

theorem digitsRev_lt_ten : ∀ (fuel n : Nat), ∀ d ∈ digitsRev fuel n, d < 10 := by
  intro fuel
  induction fuel with
  | zero => intro n d hd; simp [digitsRev] at hd
  | succ fuel ih =>
      intro n d hd
      by_cases h0 : n = 0
      · subst h0; simp [digitsRev] at hd
      · simp only [digitsRev, if_neg h0, List.mem_cons] at hd
        rcases hd with rfl | hd
        · exact Nat.mod_lt n (by decide)
        · exact ih (n / 10) d hd

theorem digChar_inj_lt : ∀ a, a < 10 → ∀ b, b < 10 → digChar a = digChar b → a = b := by
  decide

theorem digChar_ne_dot : ∀ a, a < 10 → digChar a ≠ '.' := by
  decide

theorem map_digChar_inj : ∀ (l1 l2 : List Nat), (∀ d ∈ l1, d < 10) → (∀ d ∈ l2, d < 10) →
    l1.map digChar = l2.map digChar → l1 = l2 := by
  intro l1
  induction l1 with
  | nil =>
      intro l2 h1 h2 h
      cases l2 with
      | nil => rfl
      | cons b t => simp at h
  | cons a t ih =>
      intro l2 h1 h2 h
      cases l2 with
      | nil => simp at h
      | cons b t2 =>
          simp only [List.map_cons, List.cons.injEq] at h
          have ha : a = b :=
            digChar_inj_lt a (h1 a (List.mem_cons_self a t)) b (h2 b (List.mem_cons_self b t2)) h.1
          have ht : t = t2 :=
            ih t2 (fun d hd => h1 d (List.mem_cons_of_mem a hd))
              (fun d hd => h2 d (List.mem_cons_of_mem b hd)) h.2
          rw [ha, ht]

theorem natToString_data_of_ne (n : Nat) (h : n ≠ 0) :
    (natToString n).data = ((digitsRev n n).map digChar).reverse := by
  simp [natToString, h]
  rfl

theorem natToString_no_dot (n : Nat) : ∀ c ∈ (natToString n).data, c ≠ '.' := by
  by_cases h : n = 0
  · subst h
    intro c hc
    simp [natToString] at hc
    subst hc
    decide
  · intro c hc
    rw [natToString_data_of_ne n h] at hc
    rw [List.mem_reverse] at hc
    rcases List.mem_map.mp hc with ⟨d, hd, rfl⟩
    exact digChar_ne_dot d (digitsRev_lt_ten n n d hd)

theorem natToString_eq_zero_imp (b : Nat) (h : natToString b = natToString 0) : b = 0 := by
  by_contra hb
  have hd := congrArg String.data h
  rw [natToString_data_of_ne b hb] at hd
  simp only [natToString, if_pos rfl] at hd
  have hrev := congrArg List.reverse hd
  simp only [List.reverse_reverse] at hrev
  cases hds : digitsRev b b with
  | nil =>
      rw [hds] at hrev
      simp at hrev
  | cons d t =>
      rw [hds] at hrev
      simp only [List.map_cons] at hrev
      have hdlt : d < 10 := digitsRev_lt_ten b b d (by rw [hds]; exact List.mem_cons_self d t)
      have hch : digChar d = '0' := (List.cons.inj hrev).1
      have ht : t = [] := List.map_eq_nil_iff.mp (List.cons.inj hrev).2
      have hd0 : d = 0 := digChar_inj_lt d hdlt 0 (by decide) hch
      have hround := ofDigitsRev_digitsRev b b (Nat.le_refl b)
      rw [hds, hd0, ht] at hround
      simp [ofDigitsRev] at hround
      exact hb hround.symm

theorem natToString_inj (a b : Nat) (h : natToString a = natToString b) : a = b := by
  by_cases ha : a = 0 <;> by_cases hb : b = 0
  · rw [ha, hb]
  · exfalso
    subst ha
    exact hb (natToString_eq_zero_imp b h.symm)
  · exfalso
    subst hb
    exact ha (natToString_eq_zero_imp a h)
  · have hd := congrArg String.data h
    rw [natToString_data_of_ne a ha, natToString_data_of_ne b hb] at hd
    have hrev := congrArg List.reverse hd
    simp only [List.reverse_reverse] at hrev
    have hdl : digitsRev a a = digitsRev b b :=
      map_digChar_inj (digitsRev a a) (digitsRev b b)
        (digitsRev_lt_ten a a) (digitsRev_lt_ten b b) hrev
    have h1 := ofDigitsRev_digitsRev a a (Nat.le_refl a)
    have h2 := ofDigitsRev_digitsRev b b (Nat.le_refl b)
    rw [hdl] at h1
    rw [h2] at h1
    exact h1.symm

theorem dot_data : ("." : String).data = ['.'] := rfl

theorem tenthsToString_data_of_ne (m : Nat) (h : ¬ m % 10 = 0) :
    (tenthsToString m).data = (natToString (m / 10)).data ++ ['.', digChar (m % 10)] := by
  simp [tenthsToString, h, List.append_assoc]
  rfl

theorem tenthsToString_inj (m1 m2 : Nat) (h : tenthsToString m1 = tenthsToString m2) :
    m1 = m2 := by
  have hd := congrArg String.data h
  by_cases h1 : m1 % 10 = 0 <;> by_cases h2 : m2 % 10 = 0
  · simp only [tenthsToString, if_pos h1, if_pos h2] at h
    have := natToString_inj (m1 / 10) (m2 / 10) h
    omega
  · exfalso
    rw [tenthsToString_data_of_ne m2 h2] at hd
    simp only [tenthsToString, if_pos h1] at hd
    have hdot : '.' ∈ (natToString (m1 / 10)).data := by
      rw [hd]
      simp
    exact natToString_no_dot (m1 / 10) '.' hdot rfl
  · exfalso
    rw [tenthsToString_data_of_ne m1 h1] at hd
    simp only [tenthsToString, if_pos h2] at hd
    have hdot : '.' ∈ (natToString (m2 / 10)).data := by
      rw [← hd]
      simp
    exact natToString_no_dot (m2 / 10) '.' hdot rfl
  · rw [tenthsToString_data_of_ne m1 h1, tenthsToString_data_of_ne m2 h2] at hd
    have hlen : (natToString (m1 / 10)).data.length = (natToString (m2 / 10)).data.length := by
      have := congrArg List.length hd
      simp only [List.length_append, List.length_cons] at this
      omega
    rcases List.append_inj hd hlen with ⟨hpre, hsuf⟩
    have hdiv : m1 / 10 = m2 / 10 := natToString_inj (m1 / 10) (m2 / 10) (String.ext hpre)
    have hmod : m1 % 10 = m2 % 10 := by
      have hc := (List.cons.inj hsuf).2
      have hc2 := (List.cons.inj hc).1
      exact digChar_inj_lt (m1 % 10) (Nat.mod_lt m1 (by decide)) (m2 % 10)
        (Nat.mod_lt m2 (by decide)) hc2
    omega

theorem sliderMag_value (q : ℚ) (h0 : 0 ≤ q.num) (hdvd : 10 % q.den = 0) :
    ((q.num.toNat * (10 / q.den) : ℕ) : ℚ) = q * 10 := by
  have hdvd2 : q.den ∣ 10 := Nat.dvd_of_mod_eq_zero hdvd
  have hden0 : ((q.den : ℚ)) ≠ 0 := Nat.cast_ne_zero.mpr q.den_nz
  have h1 : ((q.num.toNat : ℕ) : ℚ) = ((q.num : ℤ) : ℚ) := by
    have := Int.toNat_of_nonneg h0
    exact_mod_cast congrArg (fun z : ℤ => (z : ℚ)) this
  rw [Nat.cast_mul, h1, Nat.cast_div hdvd2 hden0]
  conv_rhs => rw [← Rat.num_div_den q]
  push_cast
  ring

theorem jsNumToString_inj (q1 q2 : ℚ) (hq1 : sliderMag q1) (hq2 : sliderMag q2)
    (h : jsNumToString q1 = jsNumToString q2) : q1 = q2 := by
  obtain ⟨h01, hd1⟩ := hq1
  obtain ⟨h02, hd2⟩ := hq2
  unfold jsNumToString at h
  rw [if_pos ⟨h01, hd1⟩, if_pos ⟨h02, hd2⟩] at h
  have hm := tenthsToString_inj _ _ h
  have v1 := sliderMag_value q1 h01 hd1
  have v2 := sliderMag_value q2 h02 hd2
  rw [hm] at v1
  have hmul : q1 * 10 = q2 * 10 := by rw [← v1, ← v2]
  have h10 : (10 : ℚ) ≠ 0 := by norm_num
  exact mul_right_cancel₀ h10 hmul

/-- C9 counterexample: two `Filters` with identical mode (real-time),
identical `timeRange` ("day") and identical `minMagnitude`, differing only
in the stored date range, produce different cache keys — the dates enter
the key even for real-time queries. -/
theorem cache_key_dates_always_included_cex :
    cacheKey ⟨"day", 2, some "2024-01-01", some "2024-03-01"⟩
      ≠ cacheKey ⟨"day", 2, some "2024-01-02", some "2024-03-01"⟩ := by
  decide

/-- C9 (amended): the cache key is a deterministic function of the full
parameter tuple `(timeRange, minMagnitude, startDate, endDate)`: equal
tuples give equal keys, and two parameter sets agreeing on everything but
`minMagnitude` (with slider-reachable magnitudes) give different keys.  The
date components always enter the key, so real-time `Filters` differing only
in the (real-time-irrelevant) date range get different keys. -/
theorem cache_key_determinism_amended :
    (∀ p1 p2 : FetchParams,
      p1.timeRange = p2.timeRange → p1.minMagnitude = p2.minMagnitude →
      p1.startDate = p2.startDate → p1.endDate = p2.endDate →
      cacheKey p1 = cacheKey p2)
    ∧ (∀ p1 p2 : FetchParams,
      p1.timeRange = p2.timeRange → p1.startDate = p2.startDate → p1.endDate = p2.endDate →
      sliderMag p1.minMagnitude → sliderMag p2.minMagnitude →
      p1.minMagnitude ≠ p2.minMagnitude →
      cacheKey p1 ≠ cacheKey p2) := by
  constructor
  · intro p1 p2 h1 h2 h3 h4
    unfold cacheKey
    rw [h1, h2, h3, h4]
  · intro p1 p2 h1 h3 h4 hs1 hs2 hne heq
    apply hne
    apply jsNumToString_inj _ _ hs1 hs2
    have hd := congrArg String.data heq
    rw [cacheKey_data, cacheKey_data, h1, h3, h4] at hd
    have hd2 := List.append_cancel_left hd
    have hd3 := List.append_cancel_left hd2
    have hd4 := List.append_cancel_left hd3
    have hd5 := List.append_cancel_right hd4
    exact String.ext hd5

theorem cache_key_determinism_amended_witness :
    cacheKey ⟨"day", 2, some "2024-01-01", none⟩
      ≠ cacheKey ⟨"day", 3, some "2024-01-01", none⟩ :=
  cache_key_determinism_amended.2
    ⟨"day", 2, some "2024-01-01", none⟩ ⟨"day", 3, some "2024-01-01", none⟩
    rfl rfl rfl (by constructor <;> decide) (by constructor <;> decide) (by decide)
